import Mathlib

/-!
# gusto: a datagram UNIX domain socket client

A shallow embedding of `src/gusto.c`.

* Bytes are natural numbers; a C character array is a `List Nat` whose length
  is the size of the array. The terminator is the byte `0`.
* Every call into the operating system or the C library that has an effect
  outside the process is recorded, with its arguments and its result, as an
  `Event`; a function of the program returns the list of events it performed.
  The results of those calls are inputs of the model.
* Diagnostics written to standard error (`perror`, `fprintf(stderr, ...)`)
  are not recorded.
* A write past the end of a fixed-size array has no defined behaviour in C;
  the functions that can do so return `none` in that case.
-/

namespace Gusto

/-! ## Constants -/

/-- Size of the message buffer (`BUFFER_SIZE`). -/
def BUFFER_SIZE : Nat := 768

/-- Modulus of `size_t` arithmetic (64-bit `size_t`). -/
def SIZE_MOD : Nat := 2 ^ 64

/-- Size of `sun_path` in `struct sockaddr_un` (its value on Linux). -/
def SUN_PATH_SIZE : Nat := 108

/-- Exit status `EXIT_SUCCESS`. -/
def EXIT_SUCCESS : Nat := 0

/-- Exit status `EXIT_FAILURE`. -/
def EXIT_FAILURE : Nat := 1

/-- File descriptor of the standard output. -/
def STDOUT_FILENO : Int := 1

/-- The newline byte. -/
def NEWLINE : Nat := 10

/-- The string literal "/gusto.XXXXXX" (13 bytes). -/
def TEMPLATE : List Nat := [47, 103, 117, 115, 116, 111, 46, 88, 88, 88, 88, 88, 88]

/-- The string literal "/socket" (7 bytes). -/
def SOCKET_NAME : List Nat := [47, 115, 111, 99, 107, 101, 116]

/-- The string literal "-h". -/
def HELP_FLAG : List Nat := [45, 104]

/-- The six placeholder bytes "XXXXXX" that `mkdtemp` replaces. -/
def PLACEHOLDER : List Nat := [88, 88, 88, 88, 88, 88]

/-! ## C library primitives on character arrays -/

/-- The C string held in a character array: the bytes before the first
    terminator. -/
def cstr : List Nat → List Nat
  | [] => []
  | b :: bs => if b = 0 then [] else b :: cstr bs

/-- Length of the C string held in a character array (`strlen`). -/
def strlen (buf : List Nat) : Nat := (cstr buf).length

/-- An array of `size` bytes after `memset(buf, 0, size)`. -/
def memset (size : Nat) : List Nat := List.replicate size 0

/-- Overwrite the bytes of `buf` from offset `off` with `bytes`; the caller
    guarantees that the bytes fit. -/
def poke (buf : List Nat) (off : Nat) (bytes : List Nat) : List Nat :=
  buf.take off ++ bytes ++ buf.drop (off + bytes.length)

/-- Overwrite the bytes of `buf` from offset `off` with `bytes`; `none` when
    the write would run past the end of the array. -/
def store (buf : List Nat) (off : Nat) (bytes : List Nat) : Option (List Nat) :=
  if off + bytes.length ≤ buf.length then some (poke buf off bytes) else none

/-- Subtraction of `size_t` values: the result wraps modulo `SIZE_MOD`. -/
def sizeSub (a b : Nat) : Nat := (a % SIZE_MOD + SIZE_MOD - b % SIZE_MOD) % SIZE_MOD

/-- The call `strncpy(dest, src, n)`: exactly `n` bytes are written to `dest`,
    the first ones taken from the string in `src`, the rest zero; no terminator
    is added when the string has `n` bytes or more. -/
def strncpy (dest src : List Nat) (n : Nat) : Option (List Nat) :=
  let s := (cstr src).take n
  store dest 0 (s ++ List.replicate (n - s.length) 0)

/-- The path field of a `struct sockaddr_un` after
    `memset(&addr, 0, sizeof(addr))` and
    `strncpy(addr.sun_path, path, sizeof(addr.sun_path))`, as the path the
    kernel reads from it: the string, cut to the size of the field. -/
def sun_path (path : List Nat) : List Nat :=
  let s := (cstr path).take SUN_PATH_SIZE
  cstr (poke (memset SUN_PATH_SIZE) 0 (s ++ List.replicate (SUN_PATH_SIZE - s.length) 0))

/-- The call `strncat(dest, src, n)`: at most `n` bytes of the string in `src`
    are appended to the string in `dest`, followed by a terminator. -/
def strncat (dest src : List Nat) (n : Nat) : Option (List Nat) :=
  if strlen dest < dest.length then
    store dest (strlen dest) ((cstr src).take n ++ [0])
  else none

/-- The call `strncmp(a, b, n)` on two C strings given without their
    terminators: zero exactly when the first `n` bytes agree, the terminator
    included. -/
def strncmp : List Nat → List Nat → Nat → Int
  | _, _, 0 => 0
  | [], [], _ + 1 => 0
  | [], b :: _, _ + 1 => if b = 0 then 0 else -(b : Int)
  | a :: _, [], _ + 1 => if a = 0 then 0 else (a : Int)
  | a :: as, b :: bs, n + 1 =>
    if a = b then (if a = 0 then 0 else strncmp as bs n) else (a : Int) - (b : Int)

/-- The bytes `fgets` takes from a stream holding `bytes`: at most `k` of
    them, stopping after the first newline. -/
def readLine : Nat → List Nat → List Nat
  | 0, _ => []
  | _ + 1, [] => []
  | k + 1, b :: bs => if b = NEWLINE then [b] else b :: readLine k bs

/-- What the standard input holds when it is read: an input error, or the
    bytes that can still be read before the end of the file (none left: the
    end of the file has been reached). -/
inductive Stdin where
  | error
  | avail (bytes : List Nat)
deriving DecidableEq, Repr

/-- The call `fgets(buf, size, stdin)`: `none` stands for the `NULL` result
    (input error, or end of file before any byte); otherwise the result is the
    line taken from the stream, and the array, which holds the line and its
    terminator. -/
def fgets (buf : List Nat) (size : Nat) : Stdin → Option (List Nat × List Nat)
  | Stdin.error => none
  | Stdin.avail [] => none
  | Stdin.avail (b :: bs) =>
    let line := readLine (size - 1) (b :: bs)
    some (line, poke buf 0 (line ++ [0]))

/-- The value of `feof(stdin)` after `fgets` returned `NULL`. -/
def feof : Stdin → Int
  | Stdin.avail [] => 1
  | _ => 0

/-- The call `recvfrom(sock, buf, len, ...)` on a datagram socket: `none`
    stands for an error (result `-1`); a datagram is cut to `len` bytes, stored
    at the start of the array, and the number of bytes stored is returned. -/
def recvfrom (buf : List Nat) (len : Nat) : Option (List Nat) → Int × List Nat
  | none => (-1, buf)
  | some dgram => (((dgram.take len).length : Int), poke buf 0 (dgram.take len))

/-! ## Effects -/

/-- A call with an effect outside the process, with its arguments and its
    result. -/
inductive Event where
  | sigprocmask (ret : Int)
  | getcwd (size : Nat) (ret : Option (List Nat))
  | mkdtemp (template : List Nat) (ret : Option (List Nat))
  | socket (ret : Int)
  | bind (sock : Int) (path : List Nat) (ret : Int)
  | select (ret : Int)
  | recvfrom (sock : Int) (len : Nat) (ret : Int)
  | fgets (size : Nat) (ret : Option (List Nat))
  | sendto (sock : Int) (payload : List Nat) (target : List Nat) (ret : Int)
  | write (fd : Int) (bytes : List Nat)
  | close (fd : Int) (ret : Int)
  | unlink (path : List Nat) (ret : Int)
  | rmdir (path : List Nat) (ret : Int)
deriving DecidableEq, Repr

/-! ## The relay: `handle_outgoing`, `handle_incoming` -/

/-- Handle outgoing data from the standard input. `addr` is the target
    address, `stdin` the state of the standard input, `sent` the result of
    `sendto`. -/
def handle_outgoing (sock : Int) (addr : List Nat) (stdin : Stdin) (sent : Int) :
    Bool × List Event :=
  -- Read the message from the standard input stream.
  let data := memset BUFFER_SIZE
  match fgets data BUFFER_SIZE stdin with
  | none =>
    if feof stdin ≠ 0 then (false, [Event.fgets BUFFER_SIZE none])
    else (true, [Event.fgets BUFFER_SIZE none])
  | some (line, data) =>
    -- Send the message to the socket.
    let len := strlen data
    let retss := sent
    let trace := [Event.fgets BUFFER_SIZE (some line),
                  Event.sendto sock (data.take len) addr retss]
    -- Check for errors.
    if retss = -1 then (false, trace)
    -- Check whether all data was sent.
    else if retss ≠ (len : Int) then (false, trace)
    else (true, trace)

/-- Handle incoming data on the socket. `dgram` is the datagram delivered by
    `recvfrom` (`none`: `recvfrom` reports an error). -/
def handle_incoming (sock : Int) (dgram : Option (List Nat)) : Bool × List Event :=
  -- Receive the message from the socket.
  let data := memset BUFFER_SIZE
  let (retss, data) := recvfrom data (BUFFER_SIZE - 1) dgram
  -- Check for potential errors.
  if retss = -1 then (false, [Event.recvfrom sock (BUFFER_SIZE - 1) retss])
  else
    -- Display the message on the standard output stream.
    (true, [Event.recvfrom sock (BUFFER_SIZE - 1) retss,
            Event.write STDOUT_FILENO (data.take retss.toNat),
            Event.write STDOUT_FILENO [NEWLINE]])

/-- The results of the operating system during one pass through the body of
    the loop of `event_loop`: the result of `select`, which descriptors it
    reports readable, and what `recvfrom`, the standard input and `sendto`
    deliver if they are used. -/
structure Cycle where
  select : Int
  sockReady : Bool
  stdinReady : Bool
  dgram : Option (List Nat)
  stdin : Stdin
  sent : Int
deriving DecidableEq, Repr

/-- The `while (true)` loop of `event_loop`, one `Cycle` per pass. `none`: the
    cycles given are used up and the loop is waiting in `select`. -/
def event_loop_while (sock : Int) (addr : List Nat) : List Cycle → Option (Bool × List Event)
  | [] => none
  | c :: cs =>
    -- Wait for events.
    if c.select = -1 then some (false, [Event.select c.select])
    else
      -- Check whether there is incoming data on the socket.
      let inc := if c.sockReady then handle_incoming sock c.dgram else (true, [])
      if inc.1 = false then some (true, Event.select c.select :: inc.2)
      else
        -- Check whether there is incoming data in the standard input stream.
        let out := if c.stdinReady then handle_outgoing sock addr c.stdin c.sent else (true, [])
        if out.1 = false then some (true, Event.select c.select :: (inc.2 ++ out.2))
        else
          match event_loop_while sock addr cs with
          | none => none
          | some (retb, trace) => some (retb, Event.select c.select :: (inc.2 ++ out.2 ++ trace))

/-- Continuously await and relay messages from the UNIX socket. -/
def event_loop (sock : Int) (path : List Nat) (cycles : List Cycle) :
    Option (Bool × List Event) :=
  -- Prepare the target address.
  let addr := sun_path path
  event_loop_while sock addr cycles

/-! ## The socket lifecycle: `create_socket`, `delete_socket` -/

/-- The call `getcwd(buf, size)`: `cwd` is the working directory the system
    reports (`none`: it cannot be resolved); the call also fails when the path
    and its terminator do not fit in `size` bytes. -/
def getcwd (buf : List Nat) (size : Nat) : Option (List Nat) → Option (List Nat)
  | none => none
  | some cwd => if cwd.length + 1 ≤ size then some (poke buf 0 (cwd ++ [0])) else none

/-- The call `mkdtemp(buf)`: `fill` is the six bytes the system chooses in
    place of the placeholder (`none`: the directory cannot be created); the
    call also fails when the template does not end in "XXXXXX". -/
def mkdtemp (buf : List Nat) : Option (List Nat) → Option (List Nat)
  | none => none
  | some fill =>
    let t := cstr buf
    if fill.length = 6 ∧ t.drop (t.length - 6) = PLACEHOLDER then
      some (poke buf (t.length - 6) fill)
    else none

/-- The path of the socket file as `create_socket` and `delete_socket` build
    it in `char path[64]`; `none` when the array is overrun. -/
def socket_path (tmp : List Nat) : Option (List Nat) :=
  let len := strlen tmp
  let path := memset 64
  match strncpy path tmp len with
  | none => none
  | some path => strncat path SOCKET_NAME (sizeSub (sizeSub 64 len) 1)

/-- The results of the operating system that `main` receives. -/
structure Env where
  sigprocmask : Int
  cwd : Option (List Nat)
  fill : Option (List Nat)
  socket : Int
  bind : Int
  cycles : List Cycle
  close : Int
  unlink : Int
  rmdir : Int
deriving DecidableEq, Repr

/-- The result of `create_socket`: its return value, the two output
    parameters, and the events performed. -/
structure Created where
  ok : Bool
  sock : Int
  tmp : List Nat
  trace : List Event
deriving DecidableEq, Repr

/-- Initialize the UNIX domain socket. `sock` and `tmp` are the output
    parameters as the caller passes them. `none`: an array is overrun. -/
def create_socket (env : Env) (sock : Int) (tmp : List Nat) : Option Created :=
  -- Get the current working directory.
  match getcwd tmp 512 env.cwd with
  | none => some ⟨false, sock, tmp, [Event.getcwd 512 none]⟩
  | some tmp =>
    let tr1 := [Event.getcwd 512 (some (cstr tmp))]
    -- Append the name template.
    let len := strlen tmp
    match strncat tmp TEMPLATE (sizeSub len 13) with
    | none => none
    | some tmp =>
      -- Create a temporary directory.
      match mkdtemp tmp env.fill with
      | none => some ⟨false, sock, tmp, tr1 ++ [Event.mkdtemp (cstr tmp) none]⟩
      | some made =>
        let tr2 := tr1 ++ [Event.mkdtemp (cstr tmp) (some (cstr made))]
        let tmp := made
        -- Create a path to the UNIX domain socket in that directory.
        match socket_path tmp with
        | none => none
        | some path =>
          -- Create a UNIX domain datagram socket.
          let sock := env.socket
          let tr3 := tr2 ++ [Event.socket sock]
          if sock = -1 then some ⟨false, sock, tmp, tr3⟩
          else
            -- Prepare the socket address and bind the socket to it.
            let addr := sun_path path
            let reti := env.bind
            let tr4 := tr3 ++ [Event.bind sock addr reti]
            if reti = -1 then some ⟨false, sock, tmp, tr4⟩
            else some ⟨true, sock, tmp, tr4⟩

/-- Finalize the socket structure. `closed`, `unlinked`, `removed` are the
    results of `close`, `unlink` and `rmdir`. `none`: an array is overrun. -/
def delete_socket (sock : Int) (tmp : List Nat) (closed unlinked removed : Int) :
    Option (Bool × List Event) :=
  -- Close the socket.
  let tr1 := [Event.close sock closed]
  if closed = -1 then some (false, tr1)
  else
    -- Create a path to the UNIX domain socket in that directory.
    match socket_path tmp with
    | none => none
    | some path =>
      -- Remove the socket file.
      let tr2 := tr1 ++ [Event.unlink (cstr path) unlinked]
      if unlinked = -1 then some (false, tr2)
      else
        -- Remove the temporary directory.
        let tr3 := tr2 ++ [Event.rmdir (cstr tmp) removed]
        if removed = -1 then some (false, tr3)
        else some (true, tr3)

/-! ## Process entry: `parse_arguments`, `block_all_signals`, `main` -/

/-- Retrieve the program configuration from the arguments: `none` stands for
    the result `false`, `some path` for `true` with the output parameter.
    `argc` is the length of `argv`. -/
def parse_arguments (argv : List (List Nat)) : Option (List Nat) :=
  -- Ensure that we receive exactly one argument: the target socket.
  if argv.length ≠ 2 then none
  else
    -- Check for a help flag.
    let reti := strncmp (argv.getD 1 []) HELP_FLAG 3
    if reti = 0 then none
    else some (argv.getD 1 [])

/-- Block all incoming signals. -/
def block_all_signals (reti : Int) : Bool × List Event :=
  if reti = -1 then (false, [Event.sigprocmask reti])
  else (true, [Event.sigprocmask reti])

/-- How a run of `main` ends. -/
inductive Outcome where
  | exit (status : Nat) (trace : List Event)
  | waiting
  | undefined
deriving DecidableEq, Repr

/-- Generic UNIX Socket Transmitter for Operators. The local variables `sock`
    and `tmp` are not initialized in the source; they start as `0` and as 1024
    zero bytes here, and are written by `create_socket` before they are read.
    `Outcome.waiting`: the cycles of `env` are used up and the process is
    waiting in `select`. `Outcome.undefined`: an array is overrun. -/
def main (argv : List (List Nat)) (env : Env) : Outcome :=
  match parse_arguments argv with
  | none => Outcome.exit EXIT_FAILURE []
  | some srv =>
    let sig := block_all_signals env.sigprocmask
    if sig.1 = false then Outcome.exit EXIT_FAILURE sig.2
    else
      match create_socket env 0 (memset 1024) with
      | none => Outcome.undefined
      | some made =>
        if made.ok = false then Outcome.exit EXIT_FAILURE (sig.2 ++ made.trace)
        else
          match event_loop made.sock srv env.cycles with
          | none => Outcome.waiting
          | some (retb, looped) =>
            if retb = false then Outcome.exit EXIT_FAILURE (sig.2 ++ made.trace ++ looped)
            else
              match delete_socket made.sock made.tmp env.close env.unlink env.rmdir with
              | none => Outcome.undefined
              | some (retb, deleted) =>
                if retb = false then
                  Outcome.exit EXIT_FAILURE (sig.2 ++ made.trace ++ looped ++ deleted)
                else Outcome.exit EXIT_SUCCESS (sig.2 ++ made.trace ++ looped ++ deleted)

/-! ## What a run leaves behind -/

/-- The directories, socket files and open sockets that the calls of a run
    have created and not removed. -/
structure Residue where
  dirs : List (List Nat)
  files : List (List Nat)
  socks : List Int
deriving DecidableEq, Repr

/-- The effect of one call on what the run has created. -/
def Residue.step (w : Residue) : Event → Residue
  | Event.mkdtemp _ (some dir) => { w with dirs := dir :: w.dirs }
  | Event.socket ret => if ret = -1 then w else { w with socks := ret :: w.socks }
  | Event.bind _ path ret => if ret = -1 then w else { w with files := path :: w.files }
  | Event.close fd ret => if ret = -1 then w else { w with socks := w.socks.erase fd }
  | Event.unlink path ret => if ret = -1 then w else { w with files := w.files.erase path }
  | Event.rmdir path ret => if ret = -1 then w else { w with dirs := w.dirs.erase path }
  | _ => w

/-- What is left after the calls of `trace`, starting from nothing. -/
def residue (trace : List Event) : Residue :=
  trace.foldl Residue.step ⟨[], [], []⟩

/-- The bytes handed to `write` on the standard output, in order. -/
def stdoutOf : List Event → List Nat
  | [] => []
  | Event.write fd bytes :: rest =>
    if fd = STDOUT_FILENO then bytes ++ stdoutOf rest else stdoutOf rest
  | _ :: rest => stdoutOf rest

/-- The payloads handed to `sendto`, in order. -/
def sentPayloads : List Event → List (List Nat)
  | [] => []
  | Event.sendto _ payload _ _ :: rest => payload :: sentPayloads rest
  | _ :: rest => sentPayloads rest

/-- Whether a call belongs to `create_socket`. -/
def Event.isCreate : Event → Bool
  | Event.getcwd _ _ => true
  | Event.mkdtemp _ _ => true
  | Event.socket _ => true
  | Event.bind _ _ _ => true
  | _ => false

/-- Whether a call belongs to the relay loop. -/
def Event.isRelay : Event → Bool
  | Event.select _ => true
  | Event.recvfrom _ _ _ => true
  | Event.fgets _ _ => true
  | Event.sendto _ _ _ _ => true
  | Event.write _ _ => true
  | _ => false

/-- Whether a call belongs to `delete_socket`. -/
def Event.isDelete : Event → Bool
  | Event.close _ _ => true
  | Event.unlink _ _ => true
  | Event.rmdir _ _ => true
  | _ => false

/-! ## Concrete inputs -/

/-- The program name "gusto" (`argv[0]`). -/
def PROGRAM : List Nat := [103, 117, 115, 116, 111]

/-- The target socket path "/tmp/t". -/
def TARGET : List Nat := [47, 116, 109, 112, 47, 116]

/-- The argument "-x". -/
def DASH_X : List Nat := [45, 120]

/-- The six bytes "a1b2c3" chosen by `mkdtemp`. -/
def FILL : List Nat := [97, 49, 98, 50, 99, 51]

/-- The directory name "/gusto.a1b2c3". -/
def FILLED : List Nat := [47, 103, 117, 115, 116, 111, 46, 97, 49, 98, 50, 99, 51]

/-- The working directory "/w". -/
def CWD_SHORT : List Nat := [47, 119]

/-- The working directory "/home/user/abc" (14 bytes). -/
def CWD_14 : List Nat := [47, 104, 111, 109, 101, 47, 117, 115, 101, 114, 47, 97, 98, 99]

/-- A working directory of 47 bytes: "/" followed by 46 times "a". -/
def CWD_47 : List Nat := 47 :: List.replicate 46 97

/-- A working directory of 50 bytes: "/" followed by 49 times "a". -/
def CWD_50 : List Nat := 47 :: List.replicate 49 97

/-- A working directory of 51 bytes: "/" followed by 50 times "a". -/
def CWD_51 : List Nat := 47 :: List.replicate 50 97

/-- A run in which every call succeeds: working directory "/w", socket
    descriptor 3; the cycles of the loop are filled in by each example. -/
def envOk : Env :=
  { sigprocmask := 0, cwd := some CWD_SHORT, fill := some FILL, socket := 3, bind := 0,
    cycles := [], close := 0, unlink := 0, rmdir := 0 }

/-- The calls of a successful start in `envOk`. -/
def startTrace : List Event :=
  [Event.sigprocmask 0,
   Event.getcwd 512 (some CWD_SHORT),
   Event.mkdtemp (CWD_SHORT ++ TEMPLATE) (some (CWD_SHORT ++ FILLED)),
   Event.socket 3,
   Event.bind 3 (CWD_SHORT ++ FILLED ++ SOCKET_NAME) 0]

/-- The calls of a successful teardown in `envOk`. -/
def stopTrace : List Event :=
  [Event.close 3 0,
   Event.unlink (CWD_SHORT ++ FILLED ++ SOCKET_NAME) 0,
   Event.rmdir (CWD_SHORT ++ FILLED) 0]

/-! ## Lemmas on the C library primitives -/

/-- The string of an array ends at the first zero byte. -/
theorem cstr_append_zero (l rest : List Nat) : cstr (l ++ 0 :: rest) = cstr l := by
  induction l with
  | nil => simp [cstr]
  | cons b l ih =>
    by_cases hb : b = 0
    · simp [cstr, hb]
    · simp [cstr, hb, ih]

/-- An array that starts with a zero byte holds the empty string. -/
theorem cstr_zero_cons (l : List Nat) : cstr (0 :: l) = [] := by
  simp [cstr]

/-- The first `strlen` bytes of an array are its string. -/
theorem take_strlen (buf : List Nat) : buf.take (strlen buf) = cstr buf := by
  induction buf with
  | nil => simp [strlen, cstr]
  | cons b l ih =>
    by_cases hb : b = 0
    · simp [strlen, cstr, hb]
    · simp only [strlen] at ih
      simp [strlen, cstr, hb, ih]

/-- A string is no longer than the array that holds it. -/
theorem cstr_length_le (l : List Nat) : (cstr l).length ≤ l.length := by
  induction l with
  | nil => simp [cstr]
  | cons b l ih =>
    by_cases hb : b = 0
    · simp [cstr, hb]
    · simp [cstr, hb, ih]

/-- Bytes without a zero are their own string. -/
theorem cstr_eq_self (l : List Nat) (h : ∀ x ∈ l, x ≠ 0) : cstr l = l := by
  induction l with
  | nil => simp [cstr]
  | cons b l ih =>
    have hb : b ≠ 0 := h b (by simp)
    have hl : ∀ x ∈ l, x ≠ 0 := fun x hx => h x (by simp [hx])
    simp [cstr, hb, ih hl]

/-- A string has no zero byte. -/
theorem cstr_no_zero (l : List Nat) : ∀ x ∈ cstr l, x ≠ 0 := by
  induction l with
  | nil => simp [cstr]
  | cons b l ih =>
    by_cases hb : b = 0
    · simp [cstr, hb]
    · intro x hx
      simp only [cstr, hb, if_false, List.mem_cons] at hx
      rcases hx with rfl | hx
      · exact hb
      · exact ih x hx

/-- Taking the string of a string changes nothing. -/
theorem cstr_idem (l : List Nat) : cstr (cstr l) = cstr l :=
  cstr_eq_self _ (cstr_no_zero l)

/-- The line taken by `fgets` has at most `k` bytes. -/
theorem readLine_length_le (k : Nat) (bs : List Nat) : (readLine k bs).length ≤ k := by
  induction k generalizing bs with
  | zero => simp [readLine]
  | succ k ih =>
    cases bs with
    | nil => simp [readLine]
    | cons b bs =>
      by_cases hb : b = NEWLINE
      · simp [readLine, hb]
      · have := ih bs
        simp [readLine, hb]
        omega

/-- Without a newline, `fgets` takes the first `k` bytes. -/
theorem readLine_eq_take (k : Nat) (bs : List Nat) (h : ∀ x ∈ bs, x ≠ NEWLINE) :
    readLine k bs = bs.take k := by
  induction k generalizing bs with
  | zero => simp [readLine]
  | succ k ih =>
    cases bs with
    | nil => simp [readLine]
    | cons b bs =>
      have hb : b ≠ NEWLINE := h b (by simp)
      have hl : ∀ x ∈ bs, x ≠ NEWLINE := fun x hx => h x (by simp [hx])
      simp [readLine, hb, ih bs hl]

/-- The array after `fgets` holds the line as a C string: the bytes read up
    to the first zero byte. -/
theorem cstr_poke_line (size : Nat) (line : List Nat) :
    cstr (poke (memset size) 0 (line ++ [0])) = cstr line := by
  simp [poke, cstr_append_zero]

/-- What `handle_outgoing` does with a line of the standard input. -/
theorem handle_outgoing_line (sock : Int) (addr : List Nat) (b : Nat) (bs : List Nat)
    (sent : Int) :
    handle_outgoing sock addr (Stdin.avail (b :: bs)) sent =
      (decide (sent ≠ -1 ∧ sent = ((cstr (readLine (BUFFER_SIZE - 1) (b :: bs))).length : Int)),
       [Event.fgets BUFFER_SIZE (some (readLine (BUFFER_SIZE - 1) (b :: bs))),
        Event.sendto sock (cstr (readLine (BUFFER_SIZE - 1) (b :: bs))) addr sent]) := by
  have hlen : strlen (poke (memset BUFFER_SIZE) 0 (readLine (BUFFER_SIZE - 1) (b :: bs) ++ [0]))
      = (cstr (readLine (BUFFER_SIZE - 1) (b :: bs))).length := by
    rw [strlen, cstr_poke_line]
  have htake : (poke (memset BUFFER_SIZE) 0 (readLine (BUFFER_SIZE - 1) (b :: bs) ++ [0])).take
      (strlen (poke (memset BUFFER_SIZE) 0 (readLine (BUFFER_SIZE - 1) (b :: bs) ++ [0])))
      = cstr (readLine (BUFFER_SIZE - 1) (b :: bs)) := by
    rw [take_strlen, cstr_poke_line]
  rw [hlen] at htake
  simp only [handle_outgoing, fgets, hlen, htake]
  by_cases h1 : sent = -1
  · simp [h1]
  · by_cases h2 : sent = ((cstr (readLine (BUFFER_SIZE - 1) (b :: bs))).length : Int)
    · simp [h1, h2]
    · simp [h1, h2]

/-- What `handle_outgoing` does when the read fails. -/
theorem handle_outgoing_null (sock : Int) (addr : List Nat) (sent : Int) :
    handle_outgoing sock addr Stdin.error sent = (true, [Event.fgets BUFFER_SIZE none]) ∧
    handle_outgoing sock addr (Stdin.avail []) sent = (false, [Event.fgets BUFFER_SIZE none]) := by
  constructor <;> simp [handle_outgoing, fgets, feof]

/-! ## Outbound transfer -/

/-- C3, as the claim states it, fails: a line with a zero byte in it is read
    whole (four bytes here) and only the byte before the zero is handed to
    `sendto`. -/
theorem handle_outgoing_cuts_at_zero_byte :
    handle_outgoing 3 [47, 116] (Stdin.avail [97, 0, 98, 10]) 1 =
      (true, [Event.fgets 768 (some [97, 0, 98, 10]), Event.sendto 3 [97] [47, 116] 1]) := by
  decide

/-- C3, amended: for every line that `handle_outgoing` reads from the standard
    input (at most 767 bytes, up to and including the first newline), the
    payload handed to `sendto` is the bytes read up to the first zero byte; when
    the line has no zero byte, it is exactly the bytes read, the trailing
    newline included. -/
theorem handle_outgoing_sends_line (sock : Int) (addr : List Nat) (b : Nat) (bs : List Nat)
    (sent : Int) :
    (handle_outgoing sock addr (Stdin.avail (b :: bs)) sent).2 =
        [Event.fgets BUFFER_SIZE (some (readLine (BUFFER_SIZE - 1) (b :: bs))),
         Event.sendto sock (cstr (readLine (BUFFER_SIZE - 1) (b :: bs))) addr sent] ∧
    ((∀ x ∈ readLine (BUFFER_SIZE - 1) (b :: bs), x ≠ 0) →
      sentPayloads (handle_outgoing sock addr (Stdin.avail (b :: bs)) sent).2 =
        [readLine (BUFFER_SIZE - 1) (b :: bs)]) := by
  rw [handle_outgoing_line]
  refine ⟨rfl, fun h => ?_⟩
  simp [sentPayloads, cstr_eq_self _ h]

/-- The line "ab\n" is sent as it is read. -/
theorem handle_outgoing_sends_line_witness :
    (∀ x ∈ readLine (BUFFER_SIZE - 1) [97, 98, 10], x ≠ 0) ∧
    sentPayloads (handle_outgoing 3 [47, 116] (Stdin.avail [97, 98, 10]) 3).2 =
      [readLine (BUFFER_SIZE - 1) [97, 98, 10]] :=
  ⟨by decide, (handle_outgoing_sends_line 3 [47, 116] 97 [98, 10] 3).2 (by decide)⟩

/-- C4: whatever the standard input holds, `handle_outgoing` calls `sendto` at
    most once and the payload has at most 767 bytes; an input of exactly 768
    bytes, or of 868 bytes, without a newline yields one datagram, made of the
    first 767 bytes up to the first zero byte. The result is a function of the
    input. -/
theorem handle_outgoing_length_bound (sock : Int) (addr : List Nat) (stdin : Stdin)
    (sent : Int) :
    (sentPayloads (handle_outgoing sock addr stdin sent).2).length ≤ 1 ∧
    (∀ p ∈ sentPayloads (handle_outgoing sock addr stdin sent).2, p.length ≤ BUFFER_SIZE - 1) ∧
    (∀ bytes, stdin = Stdin.avail bytes →
      (bytes.length = BUFFER_SIZE ∨ bytes.length = BUFFER_SIZE + 100) →
      (∀ x ∈ bytes, x ≠ NEWLINE) →
      sentPayloads (handle_outgoing sock addr stdin sent).2 = [cstr (bytes.take (BUFFER_SIZE - 1))] ∧
      (cstr (bytes.take (BUFFER_SIZE - 1))).length ≤ BUFFER_SIZE - 1) := by
  have hbound : ∀ l : List Nat, (cstr (readLine (BUFFER_SIZE - 1) l)).length ≤ BUFFER_SIZE - 1 :=
    fun l => le_trans (cstr_length_le _) (readLine_length_le _ _)
  refine ⟨?_, ?_, ?_⟩
  · rcases stdin with _ | ⟨_ | ⟨b, bs⟩⟩
    · simp [(handle_outgoing_null sock addr sent).1, sentPayloads]
    · simp [(handle_outgoing_null sock addr sent).2, sentPayloads]
    · simp [handle_outgoing_line, sentPayloads]
  · rcases stdin with _ | ⟨_ | ⟨b, bs⟩⟩
    · simp [(handle_outgoing_null sock addr sent).1, sentPayloads]
    · simp [(handle_outgoing_null sock addr sent).2, sentPayloads]
    · intro p hp
      simp only [handle_outgoing_line, sentPayloads, List.mem_singleton] at hp
      rw [hp]
      exact hbound _
  · intro bytes hs hlen hnl
    subst hs
    rcases bytes with _ | ⟨b, bs⟩
    · simp [BUFFER_SIZE] at hlen
    · have h := hbound (b :: bs)
      rw [readLine_eq_take _ _ hnl] at h
      rw [handle_outgoing_line, readLine_eq_take _ _ hnl]
      exact ⟨by simp [sentPayloads], h⟩

/-- An input of 768 bytes "a" yields one datagram of at most 767 bytes. -/
theorem handle_outgoing_length_bound_witness :
    sentPayloads (handle_outgoing 3 [47, 116] (Stdin.avail (List.replicate 768 97)) 767).2 =
        [cstr ((List.replicate 768 97).take (BUFFER_SIZE - 1))] ∧
      (cstr ((List.replicate 768 97).take (BUFFER_SIZE - 1))).length ≤ BUFFER_SIZE - 1 :=
  (handle_outgoing_length_bound 3 [47, 116] (Stdin.avail (List.replicate 768 97)) 767).2.2
    (List.replicate 768 97) rfl (Or.inl (List.length_replicate 768 97))
    (by intro x hx; rw [List.eq_of_mem_replicate hx]; decide)

/-! ## Inbound transfer -/

/-- What `handle_incoming` does with a datagram. -/
theorem handle_incoming_some (sock : Int) (dgram : List Nat) :
    handle_incoming sock (some dgram) =
      (true, [Event.recvfrom sock (BUFFER_SIZE - 1) ((dgram.take (BUFFER_SIZE - 1)).length : Int),
              Event.write STDOUT_FILENO (dgram.take (BUFFER_SIZE - 1)),
              Event.write STDOUT_FILENO [NEWLINE]]) := by
  have hne : ((dgram.take (BUFFER_SIZE - 1)).length : Int) ≠ -1 := by omega
  have htake : (poke (memset BUFFER_SIZE) 0 (dgram.take (BUFFER_SIZE - 1))).take
      ((dgram.take (BUFFER_SIZE - 1)).length : Int).toNat = dgram.take (BUFFER_SIZE - 1) := by
    simp only [poke, List.take_zero, List.nil_append, Int.toNat_ofNat, List.append_assoc]
    exact List.take_left' rfl
  simp only [handle_incoming, recvfrom, hne, if_false, htake]

/-- C5: `handle_incoming` asks `recvfrom` for at most 767 bytes; when a
    datagram is received it writes to the standard output the received bytes
    (the first 767 of the datagram) followed by one newline, hence the datagram
    and a newline when the datagram has at most 767 bytes, and returns success;
    when `recvfrom` reports an error it writes nothing and returns failure. -/
theorem handle_incoming_output (sock : Int) (dgram : List Nat) :
    handle_incoming sock (some dgram) =
      (true, [Event.recvfrom sock (BUFFER_SIZE - 1) ((dgram.take (BUFFER_SIZE - 1)).length : Int),
              Event.write STDOUT_FILENO (dgram.take (BUFFER_SIZE - 1)),
              Event.write STDOUT_FILENO [NEWLINE]]) ∧
    stdoutOf (handle_incoming sock (some dgram)).2 = dgram.take (BUFFER_SIZE - 1) ++ [NEWLINE] ∧
    (dgram.length ≤ BUFFER_SIZE - 1 →
      stdoutOf (handle_incoming sock (some dgram)).2 = dgram ++ [NEWLINE]) ∧
    handle_incoming sock none = (false, [Event.recvfrom sock (BUFFER_SIZE - 1) (-1)]) ∧
    stdoutOf (handle_incoming sock none).2 = [] := by
  have hout : stdoutOf (handle_incoming sock (some dgram)).2
      = dgram.take (BUFFER_SIZE - 1) ++ [NEWLINE] := by
    rw [handle_incoming_some]
    simp [stdoutOf]
  have hnone : handle_incoming sock none = (false, [Event.recvfrom sock (BUFFER_SIZE - 1) (-1)]) := by
    simp [handle_incoming, recvfrom]
  refine ⟨handle_incoming_some sock dgram, hout, fun h => ?_, hnone, ?_⟩
  · rw [hout, List.take_of_length_le h]
  · rw [hnone]
    simp [stdoutOf]

/-- The empty datagram is printed as a single newline. -/
theorem handle_incoming_output_witness :
    ([] : List Nat).length ≤ BUFFER_SIZE - 1 ∧
    stdoutOf (handle_incoming 3 (some [])).2 = [] ++ [NEWLINE] :=
  ⟨by decide, (handle_incoming_output 3 []).2.2.1 (by decide)⟩

/-! ## The result of the outbound transfer -/

/-- C6: `handle_outgoing` returns `false` exactly when the read met the end of
    the file, or `sendto` returned `-1`, or `sendto` returned a count other than
    the length of the payload; on a read error that is not the end of the file
    it sends nothing and returns `true`; on a complete send it returns `true`. -/
theorem handle_outgoing_result (sock : Int) (addr : List Nat) (stdin : Stdin) (sent : Int) :
    ((handle_outgoing sock addr stdin sent).1 = false ↔
      stdin = Stdin.avail [] ∨
      ∃ p, sentPayloads (handle_outgoing sock addr stdin sent).2 = [p] ∧
        (sent = -1 ∨ sent ≠ (p.length : Int))) ∧
    (stdin = Stdin.error →
      handle_outgoing sock addr stdin sent = (true, [Event.fgets BUFFER_SIZE none])) ∧
    (∀ p, sentPayloads (handle_outgoing sock addr stdin sent).2 = [p] →
      sent = (p.length : Int) → (handle_outgoing sock addr stdin sent).1 = true) := by
  rcases stdin with _ | ⟨_ | ⟨b, bs⟩⟩
  · simp [(handle_outgoing_null sock addr sent).1, sentPayloads]
  · simp [(handle_outgoing_null sock addr sent).2, sentPayloads]
  · rw [handle_outgoing_line]
    refine ⟨?_, ?_, ?_⟩
    · simp only [sentPayloads, decide_eq_false_iff_not]
      constructor
      · intro h
        refine Or.inr ⟨_, rfl, ?_⟩
        by_cases h1 : sent = -1
        · exact Or.inl h1
        · exact Or.inr (fun h2 => h ⟨h1, h2⟩)
      · rintro (h | ⟨p, hp, h⟩) ⟨h1, h2⟩
        · cases h
        · simp only [List.cons.injEq, and_true] at hp
          subst hp
          rcases h with h | h
          · exact h1 h
          · exact h h2
    · intro h
      cases h
    · intro p hp hs
      simp only [sentPayloads, List.cons.injEq, and_true] at hp
      subst hp
      have : sent ≠ -1 := by omega
      simp [this, hs]

/-- A complete send of the line "ab\n" lets the loop continue; a read error
    sends nothing and lets the loop continue. -/
theorem handle_outgoing_result_witness :
    (handle_outgoing 3 [47, 116] (Stdin.avail [97, 98, 10]) 3).1 = true ∧
    handle_outgoing 3 [47, 116] Stdin.error 0 = (true, [Event.fgets BUFFER_SIZE none]) :=
  ⟨(handle_outgoing_result 3 [47, 116] (Stdin.avail [97, 98, 10]) 3).2.2 [97, 98, 10]
      (by decide) (by decide),
   (handle_outgoing_result 3 [47, 116] Stdin.error 0).2.1 rfl⟩

/-! ## The path of the socket file -/

/-- The string of an array that starts with bytes without a zero. -/
theorem cstr_append_of_no_zero (l r : List Nat) (h : ∀ x ∈ l, x ≠ 0) :
    cstr (l ++ r) = l ++ cstr r := by
  induction l with
  | nil => simp
  | cons b l ih =>
    have hb : b ≠ 0 := h b (by simp)
    have hl : ∀ x ∈ l, x ≠ 0 := fun x hx => h x (by simp [hx])
    simp [cstr, hb, ih hl]

/-- Subtraction of `size_t` values does not wrap when the result is not negative. -/
theorem sizeSub_of_le (a b : Nat) (hb : b ≤ a) (ha : a < SIZE_MOD) : sizeSub a b = a - b := by
  unfold sizeSub
  rw [Nat.mod_eq_of_lt ha, Nat.mod_eq_of_lt (lt_of_le_of_lt hb ha)]
  have : a + SIZE_MOD - b = (a - b) + SIZE_MOD := by omega
  rw [this, Nat.add_mod_right, Nat.mod_eq_of_lt (by omega)]

/-- The bytes of "/socket" are not zero. -/
theorem socket_name_no_zero (n : Nat) : ∀ x ∈ (cstr SOCKET_NAME).take n, x ≠ 0 := by
  intro x hx
  exact cstr_no_zero SOCKET_NAME x (List.mem_of_mem_take hx)

/-- When the directory path has fewer than 64 bytes, the array `path` is not
    overrun, and the path built is the directory path followed by the first
    `63 - len` bytes of "/socket". -/
theorem socket_path_of_lt (tmp : List Nat) (h : strlen tmp < 64) :
    ∃ path, socket_path tmp = some path ∧
      cstr path = cstr tmp ++ SOCKET_NAME.take (63 - strlen tmp) := by
  have hn : sizeSub (sizeSub 64 (strlen tmp)) 1 = 63 - strlen tmp := by
    rw [sizeSub_of_le 64 (strlen tmp) (by omega) (by decide),
      sizeSub_of_le (64 - strlen tmp) 1 (by omega) (by unfold SIZE_MOD; omega)]
    omega
  have hs : (cstr tmp).take (strlen tmp) = cstr tmp := by simp [strlen]
  have hrep : (memset 64).drop (strlen tmp) = 0 :: List.replicate (63 - strlen tmp) 0 := by
    have : 64 - strlen tmp = (63 - strlen tmp) + 1 := by omega
    unfold memset
    rw [List.drop_replicate, this, List.replicate_succ]
  have hcopy : strncpy (memset 64) tmp (strlen tmp)
      = some (cstr tmp ++ 0 :: List.replicate (63 - strlen tmp) 0) := by
    have hlen : (cstr tmp).length ≤ (memset 64).length := by
      simp only [strlen] at h
      simp [memset]
      omega
    simp only [strncpy, hs, store, poke]
    simp [hlen, strlen, hrep]
    simpa [strlen] using hrep
  have hlen1 : strlen (cstr tmp ++ 0 :: List.replicate (63 - strlen tmp) 0) = strlen tmp := by
    simp [strlen, cstr_append_zero, cstr_idem]
  have hsock : cstr SOCKET_NAME = SOCKET_NAME := by decide
  have htl : ((cstr SOCKET_NAME).take (63 - strlen tmp)).length ≤ 63 - strlen tmp := by
    simp
  refine ⟨poke (cstr tmp ++ 0 :: List.replicate (63 - strlen tmp) 0) (strlen tmp)
    ((cstr SOCKET_NAME).take (63 - strlen tmp) ++ [0]), ?_, ?_⟩
  · simp only [socket_path, hcopy, strncat, hlen1, hn, store]
    have h1 : strlen tmp < (cstr tmp ++ 0 :: List.replicate (63 - strlen tmp) 0).length := by
      simp [strlen]
    have h2 : strlen tmp + ((cstr SOCKET_NAME).take (63 - strlen tmp) ++ [0]).length
        ≤ (cstr tmp ++ 0 :: List.replicate (63 - strlen tmp) 0).length := by
      simp only [List.length_append, List.length_cons, List.length_replicate, List.length_nil]
      simp only [strlen] at h htl ⊢
      omega
    rw [if_pos h1, if_pos h2]
  · have htk : (cstr tmp ++ 0 :: List.replicate (63 - strlen tmp) 0).take (strlen tmp) = cstr tmp := by
      simp [strlen]
    simp only [poke, htk, List.append_assoc]
    rw [cstr_append_of_no_zero _ _ (cstr_no_zero tmp),
      cstr_append_of_no_zero _ _ (socket_name_no_zero _), hsock]
    simp [cstr]

/-- The array `path` is overrun exactly when the directory path has 64 bytes
    or more. -/
theorem socket_path_eq_none_iff (tmp : List Nat) :
    socket_path tmp = none ↔ 64 ≤ strlen tmp := by
  constructor
  · intro hnone
    by_contra hlt
    obtain ⟨path, hp, -⟩ := socket_path_of_lt tmp (by omega)
    rw [hp] at hnone
    cases hnone
  · intro hge
    have hs : (cstr tmp).take (strlen tmp) = cstr tmp := by simp [strlen]
    by_cases h64 : strlen tmp = 64
    · have hlen : (cstr tmp).length = 64 := h64
      have hcopy : strncpy (memset 64) tmp (strlen tmp) = some (cstr tmp) := by
        simp only [strncpy, hs, store, poke]
        simp [hlen, memset, h64]
      have hfull : ¬ strlen (cstr tmp) < (cstr tmp).length := by
        simp [strlen, cstr_idem]
      simp only [socket_path, hcopy, strncat, if_neg hfull]
    · have hover : ¬ (cstr tmp).length ≤ (memset 64).length := by
        simp only [strlen] at hge h64
        simp [memset]
        omega
      simp [socket_path, strncpy, hs, store, hover, strlen]

/-- The socket file path is the directory path followed by "/socket" exactly
    when the directory path has at most 56 bytes. -/
theorem socket_path_complete_iff (tmp : List Nat) :
    (socket_path tmp).map cstr = some (cstr tmp ++ SOCKET_NAME) ↔ strlen tmp ≤ 56 := by
  by_cases hlt : strlen tmp < 64
  · obtain ⟨path, hp, hc⟩ := socket_path_of_lt tmp hlt
    rw [hp]
    simp only [Option.map_some', Option.some.injEq, hc, List.append_cancel_left_eq]
    constructor
    · intro h
      have hl := congrArg List.length h
      simp only [List.length_take, SOCKET_NAME, List.length_cons, List.length_nil] at hl
      omega
    · intro h
      exact List.take_of_length_le (by simp [SOCKET_NAME]; omega)
  · have hnone : socket_path tmp = none := (socket_path_eq_none_iff tmp).2 (by omega)
    rw [hnone]
    simp
    omega

/-- The template handed to `mkdtemp` in the working directory `cwd`: the
    directory followed by the first `len - 13` bytes, in `size_t` arithmetic, of
    "/gusto.XXXXXX". -/
theorem template_of_cwd (buf cwd : List Nat) (hbuf : buf.length = 1024)
    (hlen : cwd.length < 512) (hz : ∀ x ∈ cwd, x ≠ 0) :
    ∃ tmp1 tmp2, getcwd buf 512 (some cwd) = some tmp1 ∧
      strlen tmp1 = cwd.length ∧
      strncat tmp1 TEMPLATE (sizeSub (strlen tmp1) 13) = some tmp2 ∧
      cstr tmp2 = cwd ++ TEMPLATE.take (sizeSub cwd.length 13) := by
  have hrest : ∃ rest, poke buf 0 (cwd ++ [0]) = cwd ++ 0 :: rest ∧
      rest.length = 1023 - cwd.length := by
    refine ⟨buf.drop (cwd.length + 1), ?_, ?_⟩
    · simp only [poke, List.take_zero, List.nil_append, Nat.zero_add, List.length_append,
        List.length_cons, List.length_nil, List.append_assoc, List.singleton_append]
    · rw [List.length_drop, hbuf]
      omega
  obtain ⟨rest, hpoke, hrl⟩ := hrest
  have hget : getcwd buf 512 (some cwd) = some (cwd ++ 0 :: rest) := by
    simp only [getcwd, ← hpoke]
    rw [if_pos (by omega)]
  have hstr : strlen (cwd ++ 0 :: rest) = cwd.length := by
    rw [strlen, cstr_append_zero, cstr_eq_self cwd hz]
  have htemp : cstr TEMPLATE = TEMPLATE := by decide
  have hnz : ∀ n, ∀ x ∈ TEMPLATE.take n, x ≠ 0 := by
    intro n x hx
    have := cstr_no_zero TEMPLATE x (by rw [htemp]; exact List.mem_of_mem_take hx)
    exact this
  have htl : (TEMPLATE.take (sizeSub cwd.length 13)).length ≤ 13 := by
    rw [List.length_take]
    exact Nat.min_le_right _ _
  refine ⟨_, poke (cwd ++ 0 :: rest) cwd.length
    (TEMPLATE.take (sizeSub cwd.length 13) ++ [0]), hget, hstr, ?_, ?_⟩
  · have h1 : cwd.length < (cwd ++ 0 :: rest).length := by
      rw [List.length_append, List.length_cons]
      omega
    have h2 : cwd.length + (TEMPLATE.take (sizeSub cwd.length 13) ++ [0]).length
        ≤ (cwd ++ 0 :: rest).length := by
      simp only [List.length_append, List.length_cons, List.length_nil, hrl] at htl ⊢
      omega
    simp only [strncat, hstr, htemp, store]
    rw [if_pos h1, if_pos h2]
  · have htk : (cwd ++ 0 :: rest).take cwd.length = cwd := List.take_left' rfl
    simp only [poke, htk, List.append_assoc]
    rw [cstr_append_of_no_zero _ _ hz, cstr_append_of_no_zero _ _ (hnz _)]
    simp only [List.singleton_append, cstr_zero_cons, List.append_nil]

/-- The bound `len - 13` lets the whole of "/gusto.XXXXXX" through exactly
    when the working directory has fewer than 13 bytes or at least 26. -/
theorem template_complete_iff (len : Nat) (hlen : len < 512) :
    TEMPLATE.take (sizeSub len 13) = TEMPLATE ↔ len < 13 ∨ 26 ≤ len := by
  have hsub : sizeSub len 13 = if len < 13 then len + SIZE_MOD - 13 else len - 13 := by
    unfold sizeSub SIZE_MOD
    split <;> omega
  have hiff : TEMPLATE.take (sizeSub len 13) = TEMPLATE ↔ 13 ≤ sizeSub len 13 := by
    constructor
    · intro h
      have hl := congrArg List.length h
      simp only [List.length_take, TEMPLATE, List.length_cons, List.length_nil] at hl
      omega
    · intro h
      exact List.take_of_length_le (by simp [TEMPLATE]; omega)
  rw [hiff, hsub]
  unfold SIZE_MOD
  split <;> omega

/-! ## Teardown -/

/-- C8: for a directory path that fits the array `path` (fewer than 64 bytes,
    as `create_socket` leaves it), the calls of `delete_socket` are an initial
    segment of close, unlink, rmdir in that order; a step that fails ends the
    function with `false` and no later call; the result is `true` exactly when
    the three steps succeeded. -/
theorem delete_socket_order (sock : Int) (tmp : List Nat) (closed unlinked removed : Int)
    (h : strlen tmp < 64) :
    ∃ path retb trace,
      socket_path tmp = some path ∧
      delete_socket sock tmp closed unlinked removed = some (retb, trace) ∧
      trace <+: [Event.close sock closed, Event.unlink (cstr path) unlinked,
                 Event.rmdir (cstr tmp) removed] ∧
      (retb = true ↔ closed ≠ -1 ∧ unlinked ≠ -1 ∧ removed ≠ -1) ∧
      (closed = -1 → trace = [Event.close sock closed]) ∧
      (closed ≠ -1 → unlinked = -1 →
        trace = [Event.close sock closed, Event.unlink (cstr path) unlinked]) ∧
      (closed ≠ -1 → unlinked ≠ -1 →
        trace = [Event.close sock closed, Event.unlink (cstr path) unlinked,
                 Event.rmdir (cstr tmp) removed]) := by
  obtain ⟨path, hpath, -⟩ := socket_path_of_lt tmp h
  by_cases hc : closed = -1
  · refine ⟨path, false, [Event.close sock closed], hpath, ?_, ?_, ?_, ?_, ?_, ?_⟩
    · simp [delete_socket, hc]
    · exact ⟨_, rfl⟩
    · simp [hc]
    · intro _; rfl
    · intro h1; exact absurd hc h1
    · intro h1; exact absurd hc h1
  · by_cases hu : unlinked = -1
    · refine ⟨path, false, [Event.close sock closed, Event.unlink (cstr path) unlinked],
        hpath, ?_, ?_, ?_, ?_, ?_, ?_⟩
      · simp [delete_socket, hc, hu, hpath]
      · exact ⟨_, rfl⟩
      · simp [hu]
      · intro h1; exact absurd h1 hc
      · intro _ _; rfl
      · intro _ h2; exact absurd hu h2
    · refine ⟨path, decide (removed ≠ -1),
        [Event.close sock closed, Event.unlink (cstr path) unlinked,
         Event.rmdir (cstr tmp) removed], hpath, ?_, ?_, ?_, ?_, ?_, ?_⟩
      · by_cases hr : removed = -1
        · simp [delete_socket, hc, hu, hr, hpath]
        · simp [delete_socket, hc, hu, hr, hpath]
      · exact ⟨[], List.append_nil _⟩
      · simp [hc, hu]
      · intro h1; exact absurd h1 hc
      · intro _ h2; exact absurd h2 hu
      · intro _ _; rfl

/-- Teardown of the directory "/w/gusto.a1b2c3". -/
theorem delete_socket_order_witness :
    strlen [47, 119, 47, 103, 117, 115, 116, 111, 46, 97, 49, 98, 50, 99, 51, 0] < 64 ∧
    ∃ path retb trace,
      socket_path [47, 119, 47, 103, 117, 115, 116, 111, 46, 97, 49, 98, 50, 99, 51, 0]
        = some path ∧
      delete_socket 3 [47, 119, 47, 103, 117, 115, 116, 111, 46, 97, 49, 98, 50, 99, 51, 0] 0 0 0
        = some (retb, trace) ∧
      trace <+: [Event.close 3 0, Event.unlink (cstr path) 0,
                 Event.rmdir (cstr [47, 119, 47, 103, 117, 115, 116, 111, 46, 97, 49, 98, 50, 99, 51, 0]) 0] ∧
      (retb = true ↔ (0 : Int) ≠ -1 ∧ (0 : Int) ≠ -1 ∧ (0 : Int) ≠ -1) ∧
      ((0 : Int) = -1 → trace = [Event.close 3 0]) ∧
      ((0 : Int) ≠ -1 → (0 : Int) = -1 →
        trace = [Event.close 3 0, Event.unlink (cstr path) 0]) ∧
      ((0 : Int) ≠ -1 → (0 : Int) ≠ -1 →
        trace = [Event.close 3 0, Event.unlink (cstr path) 0,
                 Event.rmdir (cstr [47, 119, 47, 103, 117, 115, 116, 111, 46, 97, 49, 98, 50, 99, 51, 0]) 0]) :=
  ⟨by decide,
   delete_socket_order 3 [47, 119, 47, 103, 117, 115, 116, 111, 46, 97, 49, 98, 50, 99, 51, 0]
     0 0 0 (by decide)⟩

/-! ## Exit status of `main` -/

set_option maxRecDepth 100000

/-- The loop of `event_loop` returns `false` only when `select` fails: a
    failed transfer ends the loop with the result `true`. -/
theorem event_loop_while_false (sock : Int) (addr : List Nat) (cycles : List Cycle)
    (trace : List Event) (h : event_loop_while sock addr cycles = some (false, trace)) :
    ∃ c ∈ cycles, c.select = -1 := by
  induction cycles generalizing trace with
  | nil => simp [event_loop_while] at h
  | cons c cs ih =>
    by_cases hsel : c.select = -1
    · exact ⟨c, by simp, hsel⟩
    · by_cases h1 : (if c.sockReady then handle_incoming sock c.dgram else (true, [])).1 = false
      · simp [event_loop_while, hsel, h1] at h
      · by_cases h2 : (if c.stdinReady then handle_outgoing sock addr c.stdin c.sent
            else (true, [])).1 = false
        · simp [event_loop_while, hsel, h1, h2] at h
        · cases hrec : event_loop_while sock addr cs with
          | none => simp [event_loop_while, hsel, h1, h2, hrec] at h
          | some r =>
            obtain ⟨retb, tr⟩ := r
            simp [event_loop_while, hsel, h1, h2, hrec] at h
            rw [h.1] at hrec
            obtain ⟨c', hc', hs'⟩ := ih tr hrec
            exact ⟨c', by simp [hc'], hs'⟩

/-- C1, evaluated where the code departs from it: the socket is readable and
    `recvfrom` fails, or the standard input is readable and `sendto` fails or
    sends one byte of three; the loop ends, `event_loop` returns `true`,
    teardown succeeds and `main` exits with `EXIT_SUCCESS`. -/
theorem main_exits_success_after_failed_transfer :
    (handle_incoming 3 none).1 = false ∧
    main [PROGRAM, TARGET]
        { envOk with cycles := [⟨1, true, false, none, Stdin.error, 0⟩] } =
      Outcome.exit EXIT_SUCCESS
        (startTrace ++ [Event.select 1, Event.recvfrom 3 767 (-1)] ++ stopTrace) ∧
    main [PROGRAM, TARGET]
        { envOk with cycles := [⟨1, false, true, none, Stdin.avail [104, 105, 10], -1⟩] } =
      Outcome.exit EXIT_SUCCESS
        (startTrace ++ [Event.select 1, Event.fgets 768 (some [104, 105, 10]),
          Event.sendto 3 [104, 105, 10] TARGET (-1)] ++ stopTrace) ∧
    main [PROGRAM, TARGET]
        { envOk with cycles := [⟨1, false, true, none, Stdin.avail [104, 105, 10], 1⟩] } =
      Outcome.exit EXIT_SUCCESS
        (startTrace ++ [Event.select 1, Event.fgets 768 (some [104, 105, 10]),
          Event.sendto 3 [104, 105, 10] TARGET 1] ++ stopTrace) := by
  decide

/-! ## Argument validation -/

/-- The comparison `strncmp(arg, "-h", 3)` is zero exactly for the string
    "-h". -/
theorem strncmp_help_flag (arg : List Nat) :
    strncmp arg HELP_FLAG 3 = 0 ↔ cstr arg = HELP_FLAG := by
  rcases arg with _ | ⟨a0, _ | ⟨a1, _ | ⟨a2, rest⟩⟩⟩
  · simp [strncmp, HELP_FLAG, cstr]
  · by_cases h0 : a0 = 45
    · subst h0
      simp [strncmp, HELP_FLAG, cstr]
    · by_cases hz : a0 = 0
      · subst hz
        simp [strncmp, HELP_FLAG, cstr]
      · simp [strncmp, HELP_FLAG, cstr, h0, hz]
        omega
  · by_cases h0 : a0 = 45
    · subst h0
      by_cases h1 : a1 = 104
      · subst h1
        simp [strncmp, HELP_FLAG, cstr]
      · by_cases hz : a1 = 0
        · subst hz
          simp [strncmp, HELP_FLAG, cstr]
        · simp [strncmp, HELP_FLAG, cstr, h1, hz]
          omega
    · by_cases hz : a0 = 0
      · subst hz
        simp [strncmp, HELP_FLAG, cstr]
      · simp [strncmp, HELP_FLAG, cstr, h0, hz]
        omega
  · by_cases h0 : a0 = 45
    · subst h0
      by_cases h1 : a1 = 104
      · subst h1
        by_cases h2 : a2 = 0
        · subst h2
          simp [strncmp, HELP_FLAG, cstr]
        · simp [strncmp, HELP_FLAG, cstr, h2]
      · by_cases hz : a1 = 0
        · subst hz
          simp [strncmp, HELP_FLAG, cstr]
        · simp [strncmp, HELP_FLAG, cstr, h1, hz]
          omega
    · by_cases hz : a0 = 0
      · subst hz
        simp [strncmp, HELP_FLAG, cstr]
      · simp [strncmp, HELP_FLAG, cstr, h0, hz]
        omega

/-- The arguments `parse_arguments` rejects: a count other than two, or the
    single argument "-h"; every other single argument is taken as the path. -/
theorem parse_arguments_eq_none_iff (argv : List (List Nat)) :
    parse_arguments argv = none ↔ argv.length ≠ 2 ∨ cstr (argv.getD 1 []) = HELP_FLAG := by
  unfold parse_arguments
  by_cases hl : argv.length = 2
  · simp [hl, strncmp_help_flag]
  · simp [hl]

/-- C2, as the claim states it, fails: the single argument "-x" is taken as
    the target path; `create_socket` runs (getcwd, mkdtemp, socket, bind) and,
    the standard input being at its end, `main` exits with `EXIT_SUCCESS`. -/
theorem main_accepts_unrecognized_flag :
    parse_arguments [PROGRAM, DASH_X] = some DASH_X ∧
    main [PROGRAM, DASH_X]
        { envOk with cycles := [⟨1, false, true, none, Stdin.avail [], 0⟩] } =
      Outcome.exit EXIT_SUCCESS
        (startTrace ++ [Event.select 1, Event.fgets 768 none] ++ stopTrace) ∧
    startTrace.any Event.isCreate = true := by
  decide

/-- C2, amended: for every argument vector whose length is not two, and for
    the single argument "-h", `parse_arguments` fails and `main` exits with
    `EXIT_FAILURE` without any call: `create_socket` is not reached. -/
theorem main_rejects_bad_arguments (argv : List (List Nat)) (env : Env)
    (h : argv.length ≠ 2 ∨ argv.getD 1 [] = HELP_FLAG) :
    parse_arguments argv = none ∧ main argv env = Outcome.exit EXIT_FAILURE [] := by
  have hnone : parse_arguments argv = none := by
    rw [parse_arguments_eq_none_iff]
    rcases h with h | h
    · exact Or.inl h
    · right
      rw [h]
      decide
  exact ⟨hnone, by simp [main, hnone]⟩

/-- The help flag alone, and three arguments, are rejected. -/
theorem main_rejects_bad_arguments_witness :
    ([PROGRAM, HELP_FLAG].length ≠ 2 ∨ [PROGRAM, HELP_FLAG].getD 1 [] = HELP_FLAG) ∧
    main [PROGRAM, HELP_FLAG] envOk = Outcome.exit EXIT_FAILURE [] ∧
    main [PROGRAM, TARGET, TARGET] envOk = Outcome.exit EXIT_FAILURE [] :=
  ⟨Or.inr rfl,
   (main_rejects_bad_arguments [PROGRAM, HELP_FLAG] envOk (Or.inr rfl)).2,
   (main_rejects_bad_arguments [PROGRAM, TARGET, TARGET] envOk (Or.inl (by decide))).2⟩

/-! ## Failure of `create_socket` -/

/-- The ways in which `create_socket` returns `false`: the calls it has made
    end with the failing one. -/
theorem create_socket_failure (env : Env) (sock : Int) (tmp : List Nat) (made : Created)
    (hmade : create_socket env sock tmp = some made) (hfail : made.ok = false) :
    made.trace = [Event.getcwd 512 none] ∨
    (∃ cwd t, made.trace = [Event.getcwd 512 (some cwd), Event.mkdtemp t none]) ∨
    (∃ cwd t dir, made.trace =
      [Event.getcwd 512 (some cwd), Event.mkdtemp t (some dir), Event.socket (-1)]) ∨
    (∃ cwd t dir path, env.socket ≠ -1 ∧ made.trace =
      [Event.getcwd 512 (some cwd), Event.mkdtemp t (some dir), Event.socket env.socket,
       Event.bind env.socket path (-1)]) := by
  unfold create_socket at hmade
  split at hmade
  · simp only [Option.some.injEq] at hmade
    subst hmade
    exact Or.inl rfl
  · dsimp only at hmade
    split at hmade
    · cases hmade
    · split at hmade
      · simp only [Option.some.injEq] at hmade
        subst hmade
        exact Or.inr (Or.inl ⟨_, _, rfl⟩)
      · split at hmade
        · cases hmade
        · split at hmade
          · rename_i hs
            simp only [Option.some.injEq] at hmade
            subst hmade
            rw [hs]
            exact Or.inr (Or.inr (Or.inl ⟨_, _, _, rfl⟩))
          · split at hmade
            · rename_i hs hb
              simp only [Option.some.injEq] at hmade
              subst hmade
              rw [hb]
              exact Or.inr (Or.inr (Or.inr ⟨_, _, _, _, hs, rfl⟩))
            · simp only [Option.some.injEq] at hmade
              subst hmade
              cases hfail

/-- C7, as the claim states it, fails: when `socket` fails after `mkdtemp`
    succeeded, `main` exits with `EXIT_FAILURE` at once; no `rmdir` is made and
    the scratch directory "/w/gusto.a1b2c3" is left behind. -/
theorem main_leaves_directory_after_socket_failure :
    main [PROGRAM, TARGET] { envOk with socket := -1 } =
      Outcome.exit EXIT_FAILURE
        [Event.sigprocmask 0,
         Event.getcwd 512 (some CWD_SHORT),
         Event.mkdtemp (CWD_SHORT ++ TEMPLATE) (some (CWD_SHORT ++ FILLED)),
         Event.socket (-1)] ∧
    residue
        [Event.sigprocmask 0,
         Event.getcwd 512 (some CWD_SHORT),
         Event.mkdtemp (CWD_SHORT ++ TEMPLATE) (some (CWD_SHORT ++ FILLED)),
         Event.socket (-1)] =
      { dirs := [CWD_SHORT ++ FILLED], files := [], socks := [] } := by
  decide

/-- C7, amended: for every run in which `create_socket` returns `false`,
    `main` exits with `EXIT_FAILURE` right after it; the run makes no call of
    the relay loop and no call of the teardown. Nothing is left when `getcwd`
    or `mkdtemp` failed; the scratch directory is left when `socket` failed;
    the scratch directory and the open socket are left when `bind` failed. -/
theorem main_create_failure (argv : List (List Nat)) (env : Env) (srv : List Nat)
    (hargs : parse_arguments argv = some srv) (hsig : env.sigprocmask ≠ -1)
    (hfail : (create_socket env 0 (memset 1024)).map Created.ok = some false) :
    ∃ made, create_socket env 0 (memset 1024) = some made ∧
      main argv env =
        Outcome.exit EXIT_FAILURE (Event.sigprocmask env.sigprocmask :: made.trace) ∧
      (∀ e ∈ Event.sigprocmask env.sigprocmask :: made.trace,
        e.isRelay = false ∧ e.isDelete = false) ∧
      ((made.trace = [Event.getcwd 512 none] ∧
          residue (Event.sigprocmask env.sigprocmask :: made.trace) = ⟨[], [], []⟩) ∨
       (∃ cwd t, made.trace = [Event.getcwd 512 (some cwd), Event.mkdtemp t none] ∧
          residue (Event.sigprocmask env.sigprocmask :: made.trace) = ⟨[], [], []⟩) ∨
       (∃ cwd t dir, made.trace =
            [Event.getcwd 512 (some cwd), Event.mkdtemp t (some dir), Event.socket (-1)] ∧
          residue (Event.sigprocmask env.sigprocmask :: made.trace) = ⟨[dir], [], []⟩) ∨
       (∃ cwd t dir path, env.socket ≠ -1 ∧ made.trace =
            [Event.getcwd 512 (some cwd), Event.mkdtemp t (some dir), Event.socket env.socket,
             Event.bind env.socket path (-1)] ∧
          residue (Event.sigprocmask env.sigprocmask :: made.trace)
            = ⟨[dir], [], [env.socket]⟩)) := by
  cases hm : create_socket env 0 (memset 1024) with
  | none => simp [hm] at hfail
  | some made =>
    have hok : made.ok = false := by simpa [hm] using hfail
    have hmain : main argv env =
        Outcome.exit EXIT_FAILURE (Event.sigprocmask env.sigprocmask :: made.trace) := by
      simp [main, hargs, block_all_signals, hsig, hm, hok]
    refine ⟨made, rfl, hmain, ?_, ?_⟩
    · rcases create_socket_failure env 0 (memset 1024) made hm hok with
        h | ⟨_, _, h⟩ | ⟨_, _, _, h⟩ | ⟨_, _, _, _, _, h⟩ <;>
      · rw [h]
        simp [Event.isRelay, Event.isDelete]
    · rcases create_socket_failure env 0 (memset 1024) made hm hok with
        h | ⟨cwd, t, h⟩ | ⟨cwd, t, dir, h⟩ | ⟨cwd, t, dir, path, hs, h⟩
      · exact Or.inl ⟨h, by rw [h]; simp [residue, Residue.step]⟩
      · exact Or.inr (Or.inl ⟨cwd, t, h, by rw [h]; simp [residue, Residue.step]⟩)
      · exact Or.inr (Or.inr (Or.inl ⟨cwd, t, dir, h, by rw [h]; simp [residue, Residue.step]⟩))
      · exact Or.inr (Or.inr (Or.inr ⟨cwd, t, dir, path, hs, h,
          by rw [h]; simp [residue, Residue.step, hs]⟩))

/-- A run in which `bind` fails. -/
theorem main_create_failure_witness :
    ∃ made, create_socket { envOk with bind := -1 } 0 (memset 1024) = some made ∧
      main [PROGRAM, TARGET] { envOk with bind := -1 } =
        Outcome.exit EXIT_FAILURE (Event.sigprocmask 0 :: made.trace) ∧
      residue (Event.sigprocmask 0 :: made.trace) = ⟨[CWD_SHORT ++ FILLED], [], [3]⟩ := by
  obtain ⟨made, hm, hmain, -, hres⟩ :=
    main_create_failure [PROGRAM, TARGET] { envOk with bind := -1 } TARGET
      (by decide) (by decide) (by decide)
  refine ⟨made, hm, hmain, ?_⟩
  have htr : (create_socket { envOk with bind := -1 } 0 (memset 1024)).map Created.trace =
      some [Event.getcwd 512 (some CWD_SHORT),
        Event.mkdtemp (CWD_SHORT ++ TEMPLATE) (some (CWD_SHORT ++ FILLED)),
        Event.socket 3, Event.bind 3 (CWD_SHORT ++ FILLED ++ SOCKET_NAME) (-1)] := by
    decide
  rw [hm] at htr
  simp only [Option.map_some', Option.some.injEq] at htr
  change residue (Event.sigprocmask 0 :: made.trace) = _
  rw [htr]
  decide

/-! ## The name of the scratch directory -/

/-- C9, evaluated where the code departs from it: in the working directory
    "/home/user/abc" (14 bytes) the bound `len - 13` of `strncat` is 1, one
    byte of "/gusto.XXXXXX" is appended, and `mkdtemp` is called on
    "/home/user/abc/", which has no placeholder: `create_socket` fails. -/
theorem create_socket_cuts_template :
    sizeSub (strlen (CWD_14 ++ [0])) 13 = 1 ∧
    (create_socket { envOk with cwd := some CWD_14 } 0 (memset 1024)).map Created.trace =
      some [Event.getcwd 512 (some CWD_14), Event.mkdtemp (CWD_14 ++ [47]) none] ∧
    (create_socket { envOk with cwd := some CWD_14 } 0 (memset 1024)).map Created.ok =
      some false ∧
    CWD_14 ++ [47] ≠ CWD_14 ++ TEMPLATE := by
  decide

/-! ## The path the socket is bound to -/

/-- C10, evaluated where the code departs from it: in a working directory of
    47 bytes the scratch directory has 60 bytes, the bound `sizeof(path) - len
    - 1` is 3, and the socket is bound to the directory path followed by "/so";
    with 50 bytes the path is the directory itself; with 51 bytes the array
    `path` is overrun. -/
theorem create_socket_cuts_socket_name :
    sizeSub (sizeSub 64 (strlen (CWD_47 ++ FILLED ++ [0]))) 1 = 3 ∧
    (create_socket { envOk with cwd := some CWD_47 } 0 (memset 1024)).map Created.trace =
      some [Event.getcwd 512 (some CWD_47),
            Event.mkdtemp (CWD_47 ++ TEMPLATE) (some (CWD_47 ++ FILLED)),
            Event.socket 3,
            Event.bind 3 (CWD_47 ++ FILLED ++ [47, 115, 111]) 0] ∧
    (socket_path (CWD_47 ++ FILLED ++ [0])).map cstr = some (CWD_47 ++ FILLED ++ [47, 115, 111]) ∧
    (socket_path (CWD_50 ++ FILLED ++ [0])).map cstr = some (CWD_50 ++ FILLED) ∧
    socket_path (CWD_51 ++ FILLED ++ [0]) = none ∧
    create_socket { envOk with cwd := some CWD_51 } 0 (memset 1024) = none := by
  decide

end Gusto
